import Mathlib

/-!
Verification development for the repository-analysis pipeline
(`src/api/analyze.ts` of the Git_Mirror repository).

The TypeScript source is shallowly embedded: each `async` helper becomes a
Lean function over an explicit model of the remote HTTP call's outcome, the
serverless handler becomes a function from its inputs (HTTP method, request
body fields, environment variables, the settled outcomes of the three
parallel fetches, and the random draw used by the mock AI response) to the
response it sends.
-/

/-- Outcome of one underlying HTTP `fetch` call: either the transport throws
(network failure), or a response with a status code and a raw body arrives.
A JavaScript `Response` is `ok` when its status is in `[200, 300)`. -/
inductive FetchOutcome where
  | networkError (msg : String)
  | response (status : Nat) (body : String)
deriving DecidableEq

/-- Error value thrown by the TypeScript helpers (`new Error(message)`). -/
structure GhError where
  message : String
deriving DecidableEq

/-- Whether a response status counts as `ok` in JavaScript (`Response.ok`). -/
def statusOk (status : Nat) : Bool :=
  200 ≤ status && status < 300

/-- Body of the `try` block of `fetchFileContent` (analyze.ts lines 68-82):
a 404 status returns `null` (here `none`), any other non-ok status throws a
`GitHub API error` `Error`, a network failure of `fetch` itself propagates,
and an ok status resolves to the raw body text. -/
def fetchFileContentTry (o : FetchOutcome) : Except GhError (Option String) :=
  match o with
  | .networkError msg => .error ⟨msg⟩
  | .response status body =>
    if status = 404 then .ok none
    else if statusOk status then .ok (some body)
    else .error ⟨"GitHub API error (" ++ toString status ++ ")"⟩

/-- The whole of `fetchFileContent` (analyze.ts lines 67-87): the `try` body
wrapped in the `catch` handler, which logs the error and returns `null`.
The returned `Except` is what a caller of the `async` function observes:
`.ok` for a resolved promise, `.error` for a rejected one. -/
def fetchFileContent (o : FetchOutcome) : Except GhError (Option String) :=
  match fetchFileContentTry o with
  | .ok v => .ok v
  | .error _ => .ok none

/-- Whether the outcome is a failure from the caller's point of view before
any handling: the transport threw, or the response status is neither 404
nor ok. -/
def outcomeFails (o : FetchOutcome) : Bool :=
  match o with
  | .networkError _ => true
  | .response status _ => !(status = 404 || statusOk status)

/-- Result of `fetchFileContent` described outcome by outcome: a 404 yields
an absent result, an ok response yields its body, and every failure is
swallowed by the `catch` and also yields an absent result. -/
def fetchFileContentSpec (o : FetchOutcome) : Option String :=
  match o with
  | .networkError _ => none
  | .response status body =>
    if status = 404 then none
    else if statusOk status then some body
    else none

/-- Kind of a git tree entry: `blob` for a file, `tree` for a directory
(the `type` field of a `GitHubTreeItem`). -/
inductive TreeItemType where
  | blob
  | tree
deriving DecidableEq

/-- An entry of the recursive tree listing (`GitHubTreeItem`,
analyze.ts lines 40-47). -/
structure GitHubTreeItem where
  path : String
  mode : String
  type : TreeItemType
  sha : String
  size : Option Nat := none
  url : String := ""
deriving DecidableEq

/-- Response of the `git/trees` endpoint (`GitHubTreeResponse`,
analyze.ts lines 49-54). -/
structure GitHubTreeResponse where
  sha : String
  url : String
  tree : List GitHubTreeItem
  truncated : Bool
deriving DecidableEq

/-- Author block of a commit (`GitHubCommit.commit.author`). -/
structure CommitAuthor where
  name : String
  email : String
  date : String
deriving DecidableEq

/-- Inner `commit` object of a `GitHubCommit`. -/
structure CommitInfo where
  message : String
  author : CommitAuthor
deriving DecidableEq

/-- One element of the commit-list response (`GitHubCommit`,
analyze.ts lines 89-95). -/
structure GitHubCommit where
  sha : String
  commit : CommitInfo
deriving DecidableEq

/-- Extension of a file path as computed at analyze.ts lines 142-144:
split on every dot and, when there is more than one part, take the last
part. -/
def extOf (path : String) : Option String :=
  let parts := path.splitOn "."
  if parts.length > 1 then some (parts.getLastD "") else none

/-- One step of the `languageStats` accumulation (analyze.ts line 145):
`languageStats[ext] = (languageStats[ext] || 0) + 1` on a JavaScript object
whose keys keep insertion order, modelled as an association list. -/
def bumpStat (stats : List (String × Nat)) (ext : String) : List (String × Nat) :=
  if stats.any (fun p => p.1 = ext) then
    stats.map (fun p => if p.1 = ext then (p.1, p.2 + 1) else p)
  else stats ++ [(ext, 1)]

/-- The `languageStats` object built at analyze.ts lines 140-147: for each
blob entry whose path has an extension, increment that extension's count. -/
def languageStats (tree : List GitHubTreeItem) : List (String × Nat) :=
  (tree.filter (fun item => item.type = TreeItemType.blob)).foldl
    (fun acc file =>
      match extOf file.path with
      | some ext => bumpStat acc ext
      | none => acc) []

/-- The analysis payload assembled by the handler (analyze.ts lines
149-162): exactly the fields of the `analysisData` object literal. -/
structure AnalysisData where
  owner : String
  repo : String
  fileCount : Nat
  directoryCount : Nat
  hasReadme : Bool
  readmeLength : Nat
  commitCount : Nat
  languageStats : List (String × Nat)
deriving DecidableEq

/-- Derivation of `analysisData` from the three fetched resources
(analyze.ts lines 134-162). `readmeContent` is `string | null`; the
JavaScript truthiness test `!!readmeContent` is false both for `null` and
for the empty string, and `readmeContent?.length || 0` is `0` for `null`. -/
def mkAnalysisData (owner repo : String) (tree : List GitHubTreeItem)
    (readmeContent : Option String) (commits : List GitHubCommit) : AnalysisData :=
  { owner := owner
    repo := repo
    fileCount := (tree.filter (fun item => item.type = TreeItemType.blob)).length
    directoryCount := (tree.filter (fun item => item.type = TreeItemType.tree)).length
    hasReadme :=
      match readmeContent with
      | none => false
      | some s => !s.isEmpty
    readmeLength :=
      match readmeContent with
      | none => 0
      | some s => s.length
    commitCount := commits.length
    languageStats := languageStats tree }

/-- One roadmap entry of an `AnalysisReport`. -/
structure RoadmapItem where
  title : String
  explanation : String
deriving DecidableEq

/-- The report schema returned to the client (`AnalysisReport`,
analyze.ts lines 11-16). The score is validated to lie in `[0, 100]`, so a
natural number suffices. -/
structure AnalysisReport where
  score : Nat
  rating : String
  summary : String
  roadmap : List RoadmapItem
deriving DecidableEq

/-- The mock AI response (analyze.ts lines 170-179). `r` stands for
`Math.floor(Math.random() * 40)`, a natural number below 40, so the score
`r + 60` lies between 60 and 99. -/
def mockAiResponse (r : Nat) (owner repo : String) (fileCount commitCount : Nat) :
    AnalysisReport :=
  { score := r + 60
    rating := "Intermediate"
    summary := "This is a mock summary for " ++ owner ++ "/" ++ repo ++
      ". It indicates good progress with " ++ toString fileCount ++ " files and " ++
      toString commitCount ++
      " commits. However, the AI recommends further improvements in test coverage and commit message consistency."
    roadmap :=
      [⟨"Improve Test Coverage",
        "Add more unit and integration tests to ensure code reliability and prevent regressions."⟩,
       ⟨"Refine Commit Messages",
        "Adopt a conventional commit style to make your commit history more readable and informative."⟩,
       ⟨"Enhance README Documentation",
        "Expand your README.md to include usage examples, setup instructions, and project architecture details."⟩] }

/-- Responses the serverless handler can send (analyze.ts lines 104-187),
tagged by the branch that produced them. -/
inductive AnalyzeResult where
  | methodNotAllowed (detail : String)
  | badRequest (detail : String)
  | configError (detail : String)
  | serverError (detail : String)
  | success (report : AnalysisReport)
deriving DecidableEq

/-- The serverless handler (analyze.ts lines 104-187) as a function of its
request and environment. `owner`/`repo` model `request.body`, with the
empty string standing for a missing or empty field (both are falsy under
`!owner`). The three `Except` arguments are the settled outcomes of the
promises handed to `Promise.all`; when several reject, `Promise.all`
surfaces one rejection reason, modelled here as the first in argument
order. `r` models `Math.floor(Math.random() * 40)` in the mock response. -/
def analyzeHandler (method owner repo : String)
    (githubToken aiApiKey : Option String)
    (treeRes : Except GhError (List GitHubTreeItem))
    (readmeRes : Except GhError (Option String))
    (commitsRes : Except GhError (List GitHubCommit))
    (r : Nat) : AnalyzeResult :=
  if method ≠ "POST" then .methodNotAllowed "Method Not Allowed"
  else if owner = "" ∨ repo = "" then
    .badRequest "Owner and repository name are required."
  else
    match githubToken with
    | none => .configError "GITHUB_TOKEN environment variable not set."
    | some _ =>
      match aiApiKey with
      | none => .configError "AI_API_KEY environment variable not set."
      | some _ =>
        match treeRes, readmeRes, commitsRes with
        | .error e, _, _ => .serverError e.message
        | .ok _, .error e, _ => .serverError e.message
        | .ok _, .ok _, .error e => .serverError e.message
        | .ok tree, .ok readmeContent, .ok commits =>
          let d := mkAnalysisData owner repo tree readmeContent commits
          .success (mockAiResponse r owner repo d.fileCount d.commitCount)

/-- A JSON value, used both for the serialized analysis payload
(`JSON.stringify(analysisData)`) and for the parsed model completion.
Numbers are restricted to integers, which covers every numeric value the
pipeline produces or validates. -/
inductive Json where
  | null
  | bool (b : Bool)
  | num (n : Int)
  | str (s : String)
  | arr (elems : List Json)
  | obj (fields : List (String × Json))

/-- The serialized form of the analysis payload, key by key in the order of
the object literal at analyze.ts lines 149-162. -/
def analysisDataJson (d : AnalysisData) : List (String × Json) :=
  [("owner", Json.str d.owner),
   ("repo", Json.str d.repo),
   ("fileCount", Json.num d.fileCount),
   ("directoryCount", Json.num d.directoryCount),
   ("hasReadme", Json.bool d.hasReadme),
   ("readmeLength", Json.num d.readmeLength),
   ("commitCount", Json.num d.commitCount),
   ("languageStats", Json.obj (d.languageStats.map (fun p => (p.1, Json.num p.2))))]

/-- A concrete commit record with the given message. -/
def mkCommit (sha msg : String) : GitHubCommit :=
  ⟨sha, ⟨msg, ⟨"a", "a@b.c", "2024-01-01"⟩⟩⟩

/-- Repo-metadata response consumed by `fetchRepoTree`: only the
`default_branch` field is read (analyze.ts line 57). -/
structure RepoInfo where
  default_branch : String
deriving DecidableEq

/-- Path of the repository-metadata request issued by `fetchRepoTree`
(analyze.ts line 57), as handed to `callGitHubApi`. -/
def repoInfoPath (owner repo : String) : String :=
  owner ++ "/" ++ repo

/-- Path of the recursive tree-listing request issued by `fetchRepoTree`
(analyze.ts line 61). -/
def treeReqPath (owner repo branch : String) : String :=
  owner ++ "/" ++ repo ++ "/git/trees/" ++ branch ++ "?recursive=1"

/-- `fetchRepoTree` (analyze.ts lines 56-65) over oracles for the two
remote endpoints it uses, each a function from the requested path to the
call's outcome. It first requests the repository metadata, reads the
`default_branch` of the response, then requests the recursive listing under
that branch. The second component records every requested path, in order. -/
def fetchRepoTree (infoApi : String → Except GhError RepoInfo)
    (treeApi : String → Except GhError GitHubTreeResponse)
    (owner repo : String) :
    Except GhError (List GitHubTreeItem) × List String :=
  match infoApi (repoInfoPath owner repo) with
  | .error e => (.error e, [repoInfoPath owner repo])
  | .ok branchInfo =>
    match treeApi (treeReqPath owner repo branchInfo.default_branch) with
    | .error e =>
      (.error e, [repoInfoPath owner repo,
        treeReqPath owner repo branchInfo.default_branch])
    | .ok treeResponse =>
      (.ok treeResponse.tree, [repoInfoPath owner repo,
        treeReqPath owner repo branchInfo.default_branch])

/-- Whitespace characters trimmed around a model completion. -/
def isWsChar (c : Char) : Bool :=
  c = ' ' || c = '\t' || c = '\n' || c = '\r'

/-- Drop leading whitespace. -/
def skipWs (cs : List Char) : List Char :=
  cs.dropWhile isWsChar

/-- Trim whitespace from both ends of a character list. -/
def trimChars (cs : List Char) : List Char :=
  List.rdropWhile isWsChar (cs.dropWhile isWsChar)

/-- The backtick character (code 96) that delimits a code fence. -/
def fenceChar : Char := Char.ofNat 96

/-- The triple-backtick code-fence delimiter. -/
def fenceChars : List Char := [fenceChar, fenceChar, fenceChar]

/-- Opening curly brace character (code 123). -/
def lbraceChar : Char := Char.ofNat 123

/-- Closing curly brace character (code 125). -/
def rbraceChar : Char := Char.ofNat 125

/-- Decimal digit test. -/
def isDigitChar (c : Char) : Bool :=
  '0' ≤ c && c ≤ '9'

/-- Escape-sequence translation inside a parsed string literal. -/
def unescapeChar (c : Char) : Char :=
  if c = 'n' then '\n' else if c = 't' then '\t' else if c = 'r' then '\r' else c

/-- Modelled from the spec: removal of the trailing triple-backtick wrapper
of a fenced completion (spec section 4.5); part of the fence-stripping stage
of the Response Validator/Parser, which is not present under src/ (the AI
integration in analyze.ts is a placeholder). -/
def stripCloseFence (bodyT : List Char) : List Char :=
  if fenceChars.isSuffixOf bodyT then trimChars (bodyT.take (bodyT.length - 3))
  else bodyT

/-- Modelled from the spec: full fence stripping — trim, remove a leading
fence with its language tag (the rest of the opening line), then remove a
trailing fence from the re-trimmed body. -/
def stripFenceChars (cs : List Char) : List Char :=
  if fenceChars.isPrefixOf (trimChars cs) then
    stripCloseFence
      (trimChars ((((trimChars cs).drop 3).dropWhile (fun c => c != '\n')).drop 1))
  else trimChars cs

/-- Modelled from the spec: string-literal body parser for the structured
(JSON-style) completion, consuming characters up to the closing quote and
translating backslash escapes. Returns the literal's characters and the
remaining input. -/
def parseStringBody : List Char → Option (List Char × List Char)
  | [] => none
  | c :: rest =>
    if c = '"' then some ([], rest)
    else if c = '\\' then
      match rest with
      | [] => none
      | e :: rest2 => (parseStringBody rest2).map (fun p => (unescapeChar e :: p.1, p.2))
    else (parseStringBody rest).map (fun p => (c :: p.1, p.2))

/-- Modelled from the spec: decimal-digit run parser accumulating a natural
number. -/
def parseNatChars : List Char → Nat → (Nat × List Char)
  | c :: rest, acc =>
    if isDigitChar c then parseNatChars rest (acc * 10 + (c.toNat - 48)) else (acc, c :: rest)
  | [], acc => (acc, [])

mutual

/-- Modelled from the spec: recursive-descent parser for the structured
object emitted by the model (spec sections 4.5 and 9: the completion is
parsed as structured data; this stage has no counterpart under src/). The
first argument is recursion fuel; `parseJsonChars` supplies enough for any
input. -/
def parseValue : Nat → List Char → Option (Json × List Char)
  | 0, _ => none
  | fuel + 1, cs =>
    match skipWs cs with
    | [] => none
    | c :: rest =>
      if c = '"' then
        match parseStringBody rest with
        | some (body, rem) => some (Json.str (String.mk body), rem)
        | none => none
      else if c = '-' then
        match rest with
        | d :: _ =>
          if isDigitChar d then
            let p := parseNatChars rest 0
            some (Json.num (-(p.1 : Int)), p.2)
          else none
        | [] => none
      else if isDigitChar c then
        let p := parseNatChars (c :: rest) 0
        some (Json.num (p.1 : Int), p.2)
      else if c = '[' then
        match skipWs rest with
        | ']' :: rem => some (Json.arr [], rem)
        | _ => (parseElems fuel rest).map (fun p => (Json.arr p.1, p.2))
      else if c = lbraceChar then
        match skipWs rest with
        | [] => none
        | r :: rem =>
          if r = rbraceChar then some (Json.obj [], rem)
          else (parseMembers fuel rest).map (fun p => (Json.obj p.1, p.2))
      else if List.isPrefixOf ['t', 'r', 'u', 'e'] (c :: rest) then
        some (Json.bool true, rest.drop 3)
      else if List.isPrefixOf ['f', 'a', 'l', 's', 'e'] (c :: rest) then
        some (Json.bool false, rest.drop 4)
      else if List.isPrefixOf ['n', 'u', 'l', 'l'] (c :: rest) then
        some (Json.null, rest.drop 3)
      else none

/-- Modelled from the spec: parser for the comma-separated elements of a
non-empty array, including the closing bracket. -/
def parseElems : Nat → List Char → Option (List Json × List Char)
  | 0, _ => none
  | fuel + 1, cs =>
    match parseValue fuel cs with
    | some (j, rest) =>
      match skipWs rest with
      | ',' :: rest2 => (parseElems fuel rest2).map (fun p => (j :: p.1, p.2))
      | ']' :: rest2 => some ([j], rest2)
      | _ => none
    | none => none

/-- Modelled from the spec: parser for the comma-separated members of a
non-empty object, including the closing brace. -/
def parseMembers : Nat → List Char → Option (List (String × Json) × List Char)
  | 0, _ => none
  | fuel + 1, cs =>
    match skipWs cs with
    | [] => none
    | c :: rest =>
      if c = '"' then
        match parseStringBody rest with
        | some (key, rest2) =>
          match skipWs rest2 with
          | ':' :: rest3 =>
            match parseValue fuel rest3 with
            | some (v, rest4) =>
              match skipWs rest4 with
              | [] => none
              | ',' :: rest5 =>
                (parseMembers fuel rest5).map (fun p => ((String.mk key, v) :: p.1, p.2))
              | r :: rest5 =>
                if r = rbraceChar then some ([(String.mk key, v)], rest5) else none
            | none => none
          | _ => none
        | none => none
      else none

end

/-- Modelled from the spec: parse a whole character list as one structured
value, requiring only whitespace to remain. -/
def parseJsonChars (cs : List Char) : Option Json :=
  match parseValue (cs.length + 1) cs with
  | some (j, rest) => if (skipWs rest).isEmpty then some j else none
  | none => none

/-- Modelled from the spec: the typed validation failure
`MalformedModelOutput{reason}` of spec section 7. -/
structure MalformedModelOutput where
  reason : String
deriving DecidableEq

/-- First value bound to a key of a parsed object. -/
def getField (fields : List (String × Json)) (k : String) : Option Json :=
  match fields with
  | [] => none
  | (k2, v) :: rest => if k2 = k then some v else getField rest k

/-- Modelled from the spec: conversion of the roadmap array's entries, each
of which must be an object with string `title` and `explanation` fields
(spec section 4.5). -/
def roadmapOfJson : List Json → Option (List RoadmapItem)
  | [] => some []
  | j :: rest =>
    match j with
    | .obj fields =>
      match getField fields "title", getField fields "explanation" with
      | some (.str t), some (.str ex) =>
        (roadmapOfJson rest).map (fun items => ⟨t, ex⟩ :: items)
      | _, _ => none
    | _ => none

/-- Modelled from the spec: schema validation of the parsed completion
(spec section 4.5): the value must be an object with a numeric `score` in
`[0, 100]`, string `rating` and `summary`, and a `roadmap` sequence of
exactly 3 well-formed entries; every violation yields a typed
`MalformedModelOutput`. -/
def validateReport (j : Json) : Except MalformedModelOutput AnalysisReport :=
  match j with
  | .obj fields =>
    match getField fields "score" with
    | some (.num n) =>
      if 0 ≤ n ∧ n ≤ 100 then
        match getField fields "rating" with
        | some (.str rating) =>
          match getField fields "summary" with
          | some (.str summary) =>
            match getField fields "roadmap" with
            | some (.arr entries) =>
              if entries.length = 3 then
                match roadmapOfJson entries with
                | some roadmap => .ok ⟨n.toNat, rating, summary, roadmap⟩
                | none => .error ⟨"roadmap entry missing title or explanation"⟩
              else .error ⟨"roadmap must contain exactly 3 entries"⟩
            | _ => .error ⟨"missing roadmap sequence"⟩
          | _ => .error ⟨"missing summary string"⟩
        | _ => .error ⟨"missing rating string"⟩
      else .error ⟨"score out of range 0 to 100"⟩
    | _ => .error ⟨"score missing or not numeric"⟩
  | _ => .error ⟨"model output is not a structured object"⟩

/-- Modelled from the spec: `parseReport(rawText)` of spec section 4.5
(absent from src/, where the AI integration is a placeholder): strip
optional code-fence wrappers and surrounding whitespace, parse the text as
a structured object and validate it, failing with a typed
`MalformedModelOutput` on any violation. The function is total: every
failure is the typed error, never an uncaught fault. -/
def parseReport (rawText : String) : Except MalformedModelOutput AnalysisReport :=
  match parseJsonChars (stripFenceChars rawText.data) with
  | none => .error ⟨"model output does not parse as a structured object"⟩
  | some j => validateReport j

/-- A completion wrapped in code-fence markers: an opening fence with a
language tag, a newline, the body, a newline and a closing fence. -/
def wrapInFence (lang body : String) : String :=
  String.mk (fenceChars ++ lang.data ++ '\n' :: (body.data ++ '\n' :: fenceChars))

/-- A concrete well-formed model completion used as a test vector. -/
def sampleCompletion : String :=
  "\x7b\"score\":80,\"rating\":\"Good\",\"summary\":\"fine\",\"roadmap\":[\x7b\"title\":\"a\",\"explanation\":\"b\"\x7d,\x7b\"title\":\"c\",\"explanation\":\"d\"\x7d,\x7b\"title\":\"e\",\"explanation\":\"f\"\x7d]\x7d"

/-- C1 falsified: the claim says a non-404 failure (here an HTTP 500 API
error) propagates to the caller as an error, but `fetchFileContent` resolves
it to `null`: the `catch` block converts every failure into an absent
result. -/
theorem C1_counterexample :
    fetchFileContent (FetchOutcome.response 500 "boom") = Except.ok none ∧
    fetchFileContent (FetchOutcome.networkError "ECONNRESET") = Except.ok none := by
  constructor <;> rfl

/-- C1 (amended): for every call to `fetchFileContent`, a remote 404 yields
an absent result (`null`) rather than an error, and every other failure
(network error, auth rejection, non-404 API error) is caught, logged and
also converted into the absent result `null`; no failure propagates to the
caller as an error. -/
theorem C1_amended (o : FetchOutcome) :
    fetchFileContent o = Except.ok (fetchFileContentSpec o) := by
  cases o with
  | networkError msg => rfl
  | response status body =>
    simp only [fetchFileContent, fetchFileContentTry, fetchFileContentSpec]
    by_cases h404 : status = 404
    · simp [h404]
    · by_cases hok : statusOk status = true
      · simp [h404, hok]
      · simp [h404, hok]

/-- C9: `fetchFileContent` is total as a caller-visible operation: for every
outcome of the underlying remote call, including network and auth failures,
it resolves to a value (the content string or `null`) and never rejects,
even though its inner `try` body can throw. -/
theorem C9_total (o : FetchOutcome) :
    (∃ v, fetchFileContent o = Except.ok v) ∧
    (outcomeFails o = true → ∃ e, fetchFileContentTry o = Except.error e) := by
  constructor
  · cases h : fetchFileContentTry o with
    | ok v => exact ⟨v, by simp [fetchFileContent, h]⟩
    | error e => exact ⟨none, by simp [fetchFileContent, h]⟩
  · intro hfail
    cases o with
    | networkError msg => exact ⟨⟨msg⟩, rfl⟩
    | response status body =>
      simp only [outcomeFails, Bool.not_eq_true', Bool.or_eq_false_iff,
        decide_eq_false_iff_not] at hfail
      simp [fetchFileContentTry, hfail.1, hfail.2]

/-- C9 witness: totality observed at a concrete failing outcome. -/
theorem C9_total_witness :
    (∃ v, fetchFileContent (FetchOutcome.response 401 "denied") = Except.ok v) ∧
    (∃ e, fetchFileContentTry (FetchOutcome.response 401 "denied") = Except.error e) := by
  refine ⟨(C9_total (FetchOutcome.response 401 "denied")).1, ?_⟩
  exact (C9_total (FetchOutcome.response 401 "denied")).2 (by decide)

/-- C6 falsified on the `hasReadme` conjunct: for a present but empty
README content (`readmeContent = ""`), the payload reports
`hasReadme = false` although the content is present — the JavaScript
truthiness test `!!readmeContent` conflates the empty string with `null`. -/
theorem C6_counterexample :
    (mkAnalysisData "o" "r" [] (some "") []).hasReadme = false ∧
    (some "" : Option String).isSome = true := by
  constructor <;> rfl

/-- C6 (amended): the reducer computes `fileCount` as the number of blob
entries of the tree, `hasReadme` as whether the README content is present
AND non-empty (the truthiness test makes a present empty content count as
absent), `readmeLength` as the character length of the content if present
and 0 otherwise, and `commitCount` as the size of the retrieved commits
sequence; the reducer is a total function with no failure modes. -/
theorem C6_amended (owner repo : String) (tree : List GitHubTreeItem)
    (readmeContent : Option String) (commits : List GitHubCommit) :
    (mkAnalysisData owner repo tree readmeContent commits).fileCount =
      (tree.filter (fun item => item.type = TreeItemType.blob)).length ∧
    ((mkAnalysisData owner repo tree readmeContent commits).hasReadme = true ↔
      ∃ s, readmeContent = some s ∧ s ≠ "") ∧
    (mkAnalysisData owner repo tree readmeContent commits).readmeLength =
      (match readmeContent with
       | some s => s.length
       | none => 0) ∧
    (mkAnalysisData owner repo tree readmeContent commits).commitCount = commits.length := by
  cases readmeContent with
  | none => exact ⟨rfl, by simp [mkAnalysisData], rfl, rfl⟩
  | some s =>
    refine ⟨rfl, ?_, rfl, rfl⟩
    simp only [mkAnalysisData, Bool.not_eq_true']
    constructor
    · intro h
      refine ⟨s, rfl, fun hs => ?_⟩
      rw [hs] at h
      exact absurd h (by decide)
    · rintro ⟨t, ht, hne⟩
      injection ht with ht'
      subst ht'
      rw [Bool.eq_false_iff]
      intro hemp
      exact hne ((String.isEmpty_iff s).mp hemp)

/-- C3 falsified: the analysis payload assembled by the handler has no
`commitMessageSample` field at all — its keys are exactly the eight keys of
the object literal — even when commits with messages were retrieved. -/
theorem C3_counterexample :
    ("commitMessageSample" ∈
      (analysisDataJson
        (mkAnalysisData "octocat" "hello" []
          (some "# readme") [mkCommit "s1" "first commit"])).map Prod.fst) = False := by
  simp [analysisDataJson, mkAnalysisData, mkCommit]

/-- C3 (amended): the derived analysis payload contains no
`commitMessageSample`; the retrieved commit sequence contributes to the
payload only through its length (`commitCount`), so the payload is
unchanged when the commit messages change but the count does not, and its
keys never include `commitMessageSample`. -/
theorem C3_amended (owner repo : String) (tree : List GitHubTreeItem)
    (readmeContent : Option String) (commits commitsB : List GitHubCommit)
    (hlen : commits.length = commitsB.length) :
    mkAnalysisData owner repo tree readmeContent commits =
      mkAnalysisData owner repo tree readmeContent commitsB ∧
    "commitMessageSample" ∉
      (analysisDataJson (mkAnalysisData owner repo tree readmeContent commits)).map
        Prod.fst := by
  constructor
  · simp [mkAnalysisData, hlen]
  · simp [analysisDataJson]

/-- C3 amended witness: two single-commit lists with different messages
yield the same payload, and the sample key is absent. -/
theorem C3_amended_witness :
    mkAnalysisData "o" "r" [] none [mkCommit "s1" "fix: a"] =
      mkAnalysisData "o" "r" [] none [mkCommit "s2" "feat: b"] ∧
    "commitMessageSample" ∉
      (analysisDataJson (mkAnalysisData "o" "r" [] none [mkCommit "s1" "fix: a"])).map
        Prod.fst :=
  C3_amended "o" "r" [] none [mkCommit "s1" "fix: a"] [mkCommit "s2" "feat: b"] rfl

/-- C8: for every POST Analyze request in which the owner field or the repo
field is empty (or missing — both are falsy), the handler returns the 400
failure, the outcome does not depend on any of the fetch outcomes or on the
random draw (the validation short-circuits before any remote work is used),
and no report is ever produced. -/
theorem C8_empty_fields_rejected (owner repo : String)
    (tok key : Option String)
    (treeRes treeResB : Except GhError (List GitHubTreeItem))
    (readmeRes readmeResB : Except GhError (Option String))
    (commitsRes commitsResB : Except GhError (List GitHubCommit))
    (r rB : Nat) (h : owner = "" ∨ repo = "") :
    analyzeHandler "POST" owner repo tok key treeRes readmeRes commitsRes r =
      AnalyzeResult.badRequest "Owner and repository name are required." ∧
    analyzeHandler "POST" owner repo tok key treeRes readmeRes commitsRes r =
      analyzeHandler "POST" owner repo tok key treeResB readmeResB commitsResB rB ∧
    ∀ rep, analyzeHandler "POST" owner repo tok key treeRes readmeRes commitsRes r ≠
      AnalyzeResult.success rep := by
  have hb : analyzeHandler "POST" owner repo tok key treeRes readmeRes commitsRes r =
      AnalyzeResult.badRequest "Owner and repository name are required." := by
    simp [analyzeHandler, h]
  have hbB : analyzeHandler "POST" owner repo tok key treeResB readmeResB commitsResB rB =
      AnalyzeResult.badRequest "Owner and repository name are required." := by
    simp [analyzeHandler, h]
  refine ⟨hb, hb.trans hbB.symm, fun rep hc => ?_⟩
  rw [hb] at hc
  exact AnalyzeResult.noConfusion hc

/-- C8 witness: an empty repo field with every fetch succeeding still
yields the 400 failure. -/
theorem C8_empty_fields_rejected_witness :
    analyzeHandler "POST" "octocat" "" (some "t") (some "k")
      (Except.ok []) (Except.ok none) (Except.ok []) 0 =
      AnalyzeResult.badRequest "Owner and repository name are required." :=
  (C8_empty_fields_rejected "octocat" "" (some "t") (some "k")
    (Except.ok []) (Except.ok []) (Except.ok none) (Except.ok none)
    (Except.ok []) (Except.ok []) 0 1 (Or.inr rfl)).1

/-- C2: when the commit fetch rejects while the tree and README fetches
resolve, the handler returns the 500 failure carrying that error and never
a partial report; more generally, whenever any of the three parallel
fetches rejects, the handler produces no report. -/
theorem C2_fail_fast (owner repo tok key : String)
    (tree : List GitHubTreeItem) (readmeContent : Option String) (e : GhError)
    (r : Nat) (howner : owner ≠ "") (hrepo : repo ≠ "") :
    analyzeHandler "POST" owner repo (some tok) (some key)
      (Except.ok tree) (Except.ok readmeContent) (Except.error e) r =
      AnalyzeResult.serverError e.message ∧
    (∀ (treeRes : Except GhError (List GitHubTreeItem))
       (readmeRes : Except GhError (Option String))
       (commitsRes : Except GhError (List GitHubCommit)),
      ((∃ e1, treeRes = Except.error e1) ∨ (∃ e2, readmeRes = Except.error e2) ∨
        (∃ e3, commitsRes = Except.error e3)) →
      ∀ rep, analyzeHandler "POST" owner repo (some tok) (some key)
        treeRes readmeRes commitsRes r ≠ AnalyzeResult.success rep) := by
  constructor
  · simp [analyzeHandler, howner, hrepo]
  · intro treeRes readmeRes commitsRes hfail rep hc
    have hPost : ¬ ("POST" ≠ "POST") := fun h => h rfl
    have hOr : ¬ (owner = "" ∨ repo = "") := by
      rintro (h | h)
      exacts [howner h, hrepo h]
    rw [analyzeHandler.eq_def, if_neg hPost, if_neg hOr] at hc
    rcases hfail with ⟨e1, h1⟩ | ⟨e2, h2⟩ | ⟨e3, h3⟩
    · subst h1
      exact AnalyzeResult.noConfusion hc
    · subst h2
      cases treeRes <;> exact AnalyzeResult.noConfusion hc
    · subst h3
      cases treeRes <;> cases readmeRes <;> exact AnalyzeResult.noConfusion hc

/-- C2 witness: a concrete request in which only the commit fetch fails. -/
theorem C2_fail_fast_witness :
    analyzeHandler "POST" "octocat" "hello" (some "t") (some "k")
      (Except.ok []) (Except.ok (some "# readme")) (Except.error ⟨"rate limited"⟩) 0 =
      AnalyzeResult.serverError "rate limited" :=
  (C2_fail_fast "octocat" "hello" "t" "k" [] (some "# readme") ⟨"rate limited"⟩ 0
    (by decide) (by decide)).1

/-- C10: every successful Analyze response has an integer score in
`[60, 99]` and a roadmap of exactly 3 entries, each with a non-empty title
and a non-empty explanation. `r` is `Math.floor(Math.random() * 40)`, which
is below 40 since `Math.random()` is below 1. -/
theorem C10_report_invariants (method owner repo : String)
    (tok key : Option String)
    (treeRes : Except GhError (List GitHubTreeItem))
    (readmeRes : Except GhError (Option String))
    (commitsRes : Except GhError (List GitHubCommit))
    (r : Nat) (rep : AnalysisReport) (hr : r < 40)
    (hc : analyzeHandler method owner repo tok key treeRes readmeRes commitsRes r =
      AnalyzeResult.success rep) :
    60 ≤ rep.score ∧ rep.score ≤ 99 ∧ rep.roadmap.length = 3 ∧
    ∀ item ∈ rep.roadmap, item.title ≠ "" ∧ item.explanation ≠ "" := by
  rw [analyzeHandler.eq_def] at hc
  split at hc
  · cases hc
  · split at hc
    · cases hc
    · split at hc
      · cases hc
      · split at hc
        · cases hc
        · split at hc
          · cases hc
          · cases hc
          · cases hc
          · injection hc with h
            subst h
            refine ⟨?_, ?_, rfl, ?_⟩
            · simp only [mockAiResponse]
              omega
            · simp only [mockAiResponse]
              omega
            · intro item hitem
              simp only [mockAiResponse, List.mem_cons, List.not_mem_nil, or_false] at hitem
              rcases hitem with rfl | rfl | rfl <;> exact ⟨by decide, by decide⟩

/-- C10 witness: a concrete successful request with random draw 5. -/
theorem C10_report_invariants_witness :
    60 ≤ (mockAiResponse 5 "octocat" "hello" 0 0).score ∧
    (mockAiResponse 5 "octocat" "hello" 0 0).score ≤ 99 ∧
    (mockAiResponse 5 "octocat" "hello" 0 0).roadmap.length = 3 ∧
    ∀ item ∈ (mockAiResponse 5 "octocat" "hello" 0 0).roadmap,
      item.title ≠ "" ∧ item.explanation ≠ "" :=
  C10_report_invariants "POST" "octocat" "hello" (some "t") (some "k")
    (Except.ok []) (Except.ok none) (Except.ok []) 5
    (mockAiResponse 5 "octocat" "hello" 0 0) (by decide) rfl

/-- C4: given fixed results of the three remote fetches, the random draw of
the mock model invocation is the only source of non-determinism: two runs of
the handler that differ only in the draw either produce identical outcomes
(every non-success path, and in particular the whole validation and fetch
fan-in), or both succeed on the same derived payload with reports that agree
on rating, summary and roadmap and differ exactly when the draw differs —
only the model-produced score varies between runs. -/
theorem C4_model_sole_nondeterminism (method owner repo : String)
    (tok key : Option String)
    (treeRes : Except GhError (List GitHubTreeItem))
    (readmeRes : Except GhError (Option String))
    (commitsRes : Except GhError (List GitHubCommit))
    (r1 r2 : Nat) :
    (analyzeHandler method owner repo tok key treeRes readmeRes commitsRes r1 =
      analyzeHandler method owner repo tok key treeRes readmeRes commitsRes r2) ∨
    (∃ tree readmeContent commits,
      treeRes = Except.ok tree ∧ readmeRes = Except.ok readmeContent ∧
      commitsRes = Except.ok commits ∧
      analyzeHandler method owner repo tok key treeRes readmeRes commitsRes r1 =
        AnalyzeResult.success (mockAiResponse r1 owner repo
          (mkAnalysisData owner repo tree readmeContent commits).fileCount
          (mkAnalysisData owner repo tree readmeContent commits).commitCount) ∧
      analyzeHandler method owner repo tok key treeRes readmeRes commitsRes r2 =
        AnalyzeResult.success (mockAiResponse r2 owner repo
          (mkAnalysisData owner repo tree readmeContent commits).fileCount
          (mkAnalysisData owner repo tree readmeContent commits).commitCount) ∧
      (mockAiResponse r1 owner repo
          (mkAnalysisData owner repo tree readmeContent commits).fileCount
          (mkAnalysisData owner repo tree readmeContent commits).commitCount).rating =
        (mockAiResponse r2 owner repo
          (mkAnalysisData owner repo tree readmeContent commits).fileCount
          (mkAnalysisData owner repo tree readmeContent commits).commitCount).rating ∧
      (mockAiResponse r1 owner repo
          (mkAnalysisData owner repo tree readmeContent commits).fileCount
          (mkAnalysisData owner repo tree readmeContent commits).commitCount).summary =
        (mockAiResponse r2 owner repo
          (mkAnalysisData owner repo tree readmeContent commits).fileCount
          (mkAnalysisData owner repo tree readmeContent commits).commitCount).summary ∧
      (mockAiResponse r1 owner repo
          (mkAnalysisData owner repo tree readmeContent commits).fileCount
          (mkAnalysisData owner repo tree readmeContent commits).commitCount).roadmap =
        (mockAiResponse r2 owner repo
          (mkAnalysisData owner repo tree readmeContent commits).fileCount
          (mkAnalysisData owner repo tree readmeContent commits).commitCount).roadmap ∧
      (mockAiResponse r1 owner repo
          (mkAnalysisData owner repo tree readmeContent commits).fileCount
          (mkAnalysisData owner repo tree readmeContent commits).commitCount =
        mockAiResponse r2 owner repo
          (mkAnalysisData owner repo tree readmeContent commits).fileCount
          (mkAnalysisData owner repo tree readmeContent commits).commitCount ↔ r1 = r2)) := by
  by_cases hm : method ≠ "POST"
  · left
    simp [analyzeHandler, hm]
  · by_cases ho : owner = "" ∨ repo = ""
    · left
      simp [analyzeHandler, hm, ho]
    · cases tok with
      | none =>
        left
        simp [analyzeHandler, hm, ho]
      | some t =>
        cases key with
        | none =>
          left
          simp [analyzeHandler, hm, ho]
        | some k =>
          cases treeRes with
          | error e =>
            left
            simp [analyzeHandler, hm, ho]
          | ok tree =>
            cases readmeRes with
            | error e =>
              left
              simp [analyzeHandler, hm, ho]
            | ok readmeContent =>
              cases commitsRes with
              | error e =>
                left
                simp [analyzeHandler, hm, ho]
              | ok commits =>
                right
                refine ⟨tree, readmeContent, commits, rfl, rfl, rfl,
                  by simp [analyzeHandler, hm, ho], by simp [analyzeHandler, hm, ho],
                  rfl, rfl, rfl, ?_⟩
                constructor
                · intro h
                  have := congrArg AnalysisReport.score h
                  simp only [mockAiResponse] at this
                  omega
                · intro h
                  subst h
                  rfl

/-- The tree-request path determines the branch it was issued for: paths
for different branches (same owner and repo) are different strings. -/
theorem treeReqPath_branch_inj (owner repo b bB : String)
    (h : treeReqPath owner repo b = treeReqPath owner repo bB) : b = bB := by
  have hd : (treeReqPath owner repo b).data = (treeReqPath owner repo bB).data := by
    rw [h]
  simp only [treeReqPath, String.data_append, List.append_assoc] at hd
  have h1 := List.append_cancel_left hd
  have h2 := List.append_cancel_left h1
  have h3 := List.append_cancel_left h2
  have h4 := List.append_cancel_left h3
  exact String.ext (List.append_cancel_right h4)

/-- C7: `fetchRepoTree` first resolves the repository's default branch and
then requests the recursive listing under exactly that resolved branch:
when branch resolution yields `branch`, the requests issued are the
metadata request followed by the tree request for `branch`; when branch
resolution fails, no tree request is issued at all; and the tree-request
path pins down the branch, so the listing is never requested under a
hardcoded branch name independent of the resolution. -/
theorem C7_tree_under_resolved_branch
    (infoApi : String → Except GhError RepoInfo)
    (treeApi : String → Except GhError GitHubTreeResponse)
    (owner repo : String) :
    (∀ branch, infoApi (repoInfoPath owner repo) = Except.ok ⟨branch⟩ →
      (fetchRepoTree infoApi treeApi owner repo).2 =
        [repoInfoPath owner repo, treeReqPath owner repo branch]) ∧
    (∀ e, infoApi (repoInfoPath owner repo) = Except.error e →
      (fetchRepoTree infoApi treeApi owner repo).2 = [repoInfoPath owner repo]) ∧
    (∀ b bB, treeReqPath owner repo b = treeReqPath owner repo bB → b = bB) := by
  refine ⟨?_, ?_, treeReqPath_branch_inj owner repo⟩
  · intro branch hinfo
    rw [fetchRepoTree, hinfo]
    rcases h2 : treeApi (treeReqPath owner repo branch) with e | tr <;> simp [h2]
  · intro e hinfo
    rw [fetchRepoTree, hinfo]

/-- C7 witness: an oracle that resolves the default branch to `develop`
leads to a tree request under `develop`, and a failing resolution leads to
no tree request. -/
theorem C7_tree_under_resolved_branch_witness :
    (fetchRepoTree
      (fun p => if p = "octocat/hello" then Except.ok ⟨"develop"⟩ else Except.error ⟨"nf"⟩)
      (fun _ => Except.ok ⟨"sha0", "u", [], false⟩) "octocat" "hello").2 =
      ["octocat/hello", treeReqPath "octocat" "hello" "develop"] ∧
    (fetchRepoTree (fun _ => Except.error ⟨"Repository or resource not found on GitHub."⟩)
      (fun _ => Except.ok ⟨"sha0", "u", [], false⟩) "octocat" "hello").2 =
      ["octocat/hello"] := by
  constructor
  · exact (C7_tree_under_resolved_branch
      (fun p => if p = "octocat/hello" then Except.ok ⟨"develop"⟩ else Except.error ⟨"nf"⟩)
      (fun _ => Except.ok ⟨"sha0", "u", [], false⟩) "octocat" "hello").1 "develop" rfl
  · exact (C7_tree_under_resolved_branch
      (fun _ => Except.error ⟨"Repository or resource not found on GitHub."⟩)
      (fun _ => Except.ok ⟨"sha0", "u", [], false⟩) "octocat" "hello").2.1
      ⟨"Repository or resource not found on GitHub."⟩ rfl

/-- Dropping a prefix whose elements all satisfy the predicate continues on
the remainder. -/
theorem dropWhile_append_all {α : Type} (p : α → Bool) (l₁ l₂ : List α)
    (h : l₁.all p = true) : (l₁ ++ l₂).dropWhile p = l₂.dropWhile p := by
  induction l₁ with
  | nil => rfl
  | cons a as ih =>
    simp only [List.all_cons, Bool.and_eq_true] at h
    simp [List.dropWhile_cons, h.1, ih h.2]

/-- A list unchanged by left whitespace-trimming has a non-whitespace
head. -/
theorem head_not_ws {b : Char} {bs : List Char}
    (h : (b :: bs).dropWhile isWsChar = b :: bs) : isWsChar b = false := by
  by_contra hb
  rw [Bool.not_eq_false] at hb
  rw [List.dropWhile_cons, if_pos hb] at h
  have := (List.dropWhile_suffix (l := bs) isWsChar).sublist.length_le
  have h2 := congrArg List.length h
  simp at h2
  omega

/-- Trimming a left-trimmed non-empty body followed by a newline and a
closing fence changes nothing: the ends are a non-whitespace character and
a backtick. -/
theorem trim_body_fence (body : List Char) (hL : body.dropWhile isWsChar = body)
    (hne : body ≠ []) :
    trimChars (body ++ '\n' :: fenceChars) = body ++ '\n' :: fenceChars := by
  obtain ⟨b, bs, rfl⟩ : ∃ b bs, body = b :: bs := by
    cases body with
    | nil => exact absurd rfl hne
    | cons b bs => exact ⟨b, bs, rfl⟩
  have hb := head_not_ws hL
  unfold trimChars
  rw [List.cons_append, List.dropWhile_cons, if_neg (by simp [hb])]
  have hshape : (b :: bs) ++ '\n' :: fenceChars =
      ((b :: bs) ++ ['\n', fenceChar, fenceChar]) ++ [fenceChar] := by
    simp [fenceChars]
  rw [← List.cons_append, hshape]
  rw [List.rdropWhile_concat_neg _ _ _ (by decide)]

/-- Fence stripping undoes fence wrapping: for a trimmed, non-empty body
that does not itself start with a fence, and a language tag without a
newline, stripping the wrapped completion returns the body, and stripping
the bare body also returns the body. -/
theorem stripFence_wrap (lang body : List Char)
    (hL : body.dropWhile isWsChar = body)
    (hR : List.rdropWhile isWsChar body = body)
    (hne : body ≠ [])
    (hP : fenceChars.isPrefixOf body = false)
    (hlang : lang.all (fun c => c != '\n') = true) :
    stripFenceChars (fenceChars ++ lang ++ '\n' :: (body ++ '\n' :: fenceChars)) = body ∧
    stripFenceChars body = body := by
  have htrim : trimChars body = body := by
    unfold trimChars
    rw [hL, hR]
  have hrhs : stripFenceChars body = body := by
    unfold stripFenceChars
    rw [htrim, hP]
    simp
  have hf : isWsChar fenceChar = false := by decide
  have hdropW : (fenceChars ++ lang ++ '\n' :: (body ++ '\n' :: fenceChars)).dropWhile isWsChar =
      fenceChars ++ lang ++ '\n' :: (body ++ '\n' :: fenceChars) := by
    simp [fenceChars, List.dropWhile_cons, hf]
  have hshapeW : fenceChars ++ lang ++ '\n' :: (body ++ '\n' :: fenceChars) =
      (fenceChars ++ lang ++ '\n' :: (body ++ ['\n', fenceChar, fenceChar])) ++ [fenceChar] := by
    simp [fenceChars]
  have htrimW : trimChars (fenceChars ++ lang ++ '\n' :: (body ++ '\n' :: fenceChars)) =
      fenceChars ++ lang ++ '\n' :: (body ++ '\n' :: fenceChars) := by
    unfold trimChars
    rw [hdropW, hshapeW, List.rdropWhile_concat_neg _ _ _ (by decide)]
  have hpre : fenceChars.isPrefixOf
      (fenceChars ++ lang ++ '\n' :: (body ++ '\n' :: fenceChars)) = true := by
    simp [fenceChars, List.isPrefixOf]
  have hdrop3 : (fenceChars ++ lang ++ '\n' :: (body ++ '\n' :: fenceChars)).drop 3 =
      lang ++ '\n' :: (body ++ '\n' :: fenceChars) := by
    simp [fenceChars]
  have hdropnl : (lang ++ '\n' :: (body ++ '\n' :: fenceChars)).dropWhile
      (fun c => c != '\n') = '\n' :: (body ++ '\n' :: fenceChars) := by
    rw [dropWhile_append_all _ _ _ hlang]
    rw [List.dropWhile_cons, if_neg (by simp)]
  have hbodyT : trimChars (body ++ '\n' :: fenceChars) = body ++ '\n' :: fenceChars :=
    trim_body_fence body hL hne
  have hsuf : fenceChars.isSuffixOf (body ++ '\n' :: fenceChars) = true := by
    simp [List.isSuffixOf, fenceChars, List.isPrefixOf]
  have hlen : (body ++ '\n' :: fenceChars).length - 3 = body.length + 1 := by
    simp [fenceChars]
  have htake : (body ++ '\n' :: fenceChars).take ((body ++ '\n' :: fenceChars).length - 3) =
      body ++ ['\n'] := by
    rw [hlen, List.take_append_eq_append_take, List.take_of_length_le (by omega)]
    have h1 : body.length + 1 - body.length = 1 := by omega
    rw [h1]
    simp [fenceChars]
  have htrim2 : trimChars (body ++ ['\n']) = body := by
    obtain ⟨b, bs, rfl⟩ : ∃ b bs, body = b :: bs := by
      cases body with
      | nil => exact absurd rfl hne
      | cons b bs => exact ⟨b, bs, rfl⟩
    have hb := head_not_ws hL
    unfold trimChars
    rw [List.cons_append, List.dropWhile_cons, if_neg (by simp [hb]), ← List.cons_append,
      List.rdropWhile_concat_pos _ _ _ (by decide), hR]
  refine ⟨?_, hrhs⟩
  unfold stripFenceChars
  rw [htrimW, hpre]
  simp only [if_true]
  rw [hdrop3, hdropnl]
  simp only [List.drop_succ_cons, List.drop_zero]
  rw [hbodyT]
  unfold stripCloseFence
  rw [hsuf]
  simp only [if_true]
  rw [htake, htrim2]

/-- Shape of a successful validation: the parsed value was an object with a
numeric score in range and a 3-element roadmap array. -/
theorem validateReport_ok (j : Json) (rep : AnalysisReport)
    (h : validateReport j = Except.ok rep) :
    ∃ fields n entries,
      j = Json.obj fields ∧
      getField fields "score" = some (Json.num n) ∧ 0 ≤ n ∧ n ≤ 100 ∧
      getField fields "roadmap" = some (Json.arr entries) ∧ entries.length = 3 := by
  rw [validateReport.eq_def] at h
  split at h
  · rename_i fields
    split at h
    · rename_i n hscore
      split at h
      · rename_i hrange
        split at h
        · rename_i rating hrating
          split at h
          · rename_i summary hsummary
            split at h
            · rename_i entries hroadmap
              split at h
              · rename_i hlen
                exact ⟨fields, n, entries, rfl, hscore, hrange.1, hrange.2, hroadmap, hlen⟩
              · cases h
            · cases h
          · cases h
        · cases h
      · cases h
    · cases h
  · cases h

/-- C5: `parseReport` fails with a typed `MalformedModelOutput` — never an
uncaught fault, being total by construction — on the empty completion, on
every structured object missing the `roadmap` key, on every roadmap whose
length is not 3, and on every score that is out of `[0, 100]` or
non-numeric; and a completion wrapped in code-fence markers parses
identically to the same completion unwrapped. -/
theorem C5_parse_validation :
    (∃ e, parseReport "" = Except.error e) ∧
    (∀ fields, getField fields "roadmap" = none →
      ∃ e, validateReport (Json.obj fields) = Except.error e) ∧
    (∀ fields entries, getField fields "roadmap" = some (Json.arr entries) →
      entries.length ≠ 3 → ∃ e, validateReport (Json.obj fields) = Except.error e) ∧
    (∀ fields n, getField fields "score" = some (Json.num n) → (n < 0 ∨ 100 < n) →
      ∃ e, validateReport (Json.obj fields) = Except.error e) ∧
    (∀ fields j, getField fields "score" = some j → (∀ n, j ≠ Json.num n) →
      ∃ e, validateReport (Json.obj fields) = Except.error e) ∧
    (∀ lang body : String,
      body.data.dropWhile isWsChar = body.data →
      List.rdropWhile isWsChar body.data = body.data →
      body.data ≠ [] →
      fenceChars.isPrefixOf body.data = false →
      lang.data.all (fun c => c != '\n') = true →
      parseReport (wrapInFence lang body) = parseReport body) := by
  refine ⟨⟨_, rfl⟩, ?_, ?_, ?_, ?_, ?_⟩
  · intro fields hnone
    cases hv : validateReport (Json.obj fields) with
    | error e => exact ⟨e, rfl⟩
    | ok rep =>
      obtain ⟨f2, n, entries, hobj, hscore, h0, h100, hroad, hlen⟩ := validateReport_ok _ _ hv
      injection hobj with hf
      subst hf
      rw [hnone] at hroad
      cases hroad
  · intro fields entries hroad hlen3
    cases hv : validateReport (Json.obj fields) with
    | error e => exact ⟨e, rfl⟩
    | ok rep =>
      obtain ⟨f2, n, entries2, hobj, hscore, h0, h100, hroad2, hlen⟩ := validateReport_ok _ _ hv
      injection hobj with hf
      subst hf
      rw [hroad] at hroad2
      injection hroad2 with harr
      injection harr with hentries
      subst hentries
      exact absurd hlen hlen3
  · intro fields n hscore hout
    cases hv : validateReport (Json.obj fields) with
    | error e => exact ⟨e, rfl⟩
    | ok rep =>
      obtain ⟨f2, n2, entries, hobj, hscore2, h0, h100, hr1, hr2⟩ := validateReport_ok _ _ hv
      injection hobj with hf
      subst hf
      rw [hscore] at hscore2
      injection hscore2 with hnum
      injection hnum with hn
      subst hn
      omega
  · intro fields j hscore hnotnum
    cases hv : validateReport (Json.obj fields) with
    | error e => exact ⟨e, rfl⟩
    | ok rep =>
      obtain ⟨f2, n2, entries, hobj, hscore2, h0, h100, hr1, hr2⟩ := validateReport_ok _ _ hv
      injection hobj with hf
      subst hf
      rw [hscore] at hscore2
      injection hscore2 with hj
      exact absurd hj (hnotnum n2)
  · intro lang body hL hR hne hP hlang
    have hs := stripFence_wrap lang.data body.data hL hR hne hP hlang
    unfold parseReport
    rw [show (wrapInFence lang body).data =
      fenceChars ++ lang.data ++ '\n' :: (body.data ++ '\n' :: fenceChars) from rfl]
    rw [hs.1, hs.2]

/-- C5 witness: each rejection observed at a concrete malformed completion
(score 80 object missing roadmap, 2-entry roadmap, score 150, score the
string high), and the fence round-trip observed on a concrete well-formed
completion. -/
theorem C5_parse_validation_witness :
    (∃ e, parseReport "" = Except.error e) ∧
    (∃ e, validateReport (Json.obj [("score", Json.num 80)]) = Except.error e) ∧
    (∃ e, validateReport
      (Json.obj [("roadmap", Json.arr [Json.null, Json.null])]) = Except.error e) ∧
    (∃ e, validateReport (Json.obj [("score", Json.num 150)]) = Except.error e) ∧
    (∃ e, validateReport (Json.obj [("score", Json.str "high")]) = Except.error e) ∧
    parseReport (wrapInFence "json" sampleCompletion) = parseReport sampleCompletion := by
  refine ⟨C5_parse_validation.1, ?_, ?_, ?_, ?_, ?_⟩
  · exact C5_parse_validation.2.1 [("score", Json.num 80)] rfl
  · exact C5_parse_validation.2.2.1 [("roadmap", Json.arr [Json.null, Json.null])]
      [Json.null, Json.null] rfl (by decide)
  · exact C5_parse_validation.2.2.2.1 [("score", Json.num 150)] 150 rfl
      (Or.inr (by decide))
  · exact C5_parse_validation.2.2.2.2.1 [("score", Json.str "high")] (Json.str "high") rfl
      (fun n h => Json.noConfusion h)
  · exact C5_parse_validation.2.2.2.2.2 "json" sampleCompletion (by decide) (by decide)
      (by decide) (by decide) (by decide)
